import Mathlib

/-!
Verification development for the geolocation / historical-timeline query
engine.  The two Python modules (`geolocation_server/server.py` and
`historical_map_server/server.py`) are shallowly embedded here:

* coordinates and distances are modelled over `ℚ`; the query operations
  only ever use the haversine distance through its *values* (comparisons
  with a radius, sorting keys), so each operation is parametrised by an
  arbitrary distance function `DistFn`.  The haversine formula itself is
  embedded separately over `ℝ` (`_haversine_km`, `_distance_km`) where its
  algebraic contract is proved.
* Python dicts returned by the tools become structures; the `{"error": …}`
  dictionaries become the `Except.error` branch.
* `round(x, 3)` becomes `round3` (floor of `1000*x + 1/2` over `ℚ`).
* Python's stable `list.sort(key=…)` becomes `List.insertionSort` with the
  corresponding key relation; insertion sort is stable, which is proved
  below (`insertionSort_filter_key`) and used for the tie-break claims.
-/

/-- Python `round(x, 3)`: rounding to three decimal places.  (Python uses
banker's rounding at exact half-way points; no claim exercises such a
point, so the half-up rounding over `ℚ` is used.) -/
def round3 (x : ℚ) : ℚ := ((1000 * x + 1/2).floor : ℚ) / 1000

/-- ASCII lower-casing of one character, as Python `str.lower` acts on the
ASCII names in the datasets. -/
def lowerChar (c : Char) : Char :=
  if c.toNat < 65 then c else if c.toNat ≤ 90 then Char.ofNat (c.toNat + 32) else c

/-- Python `s.lower()` on the ASCII strings of the datasets. -/
def strLower (s : String) : String := String.mk (s.data.map lowerChar)

/-- Whitespace for Python `str.strip()`. -/
def isWs (c : Char) : Bool := c = ' ' || c = '\t' || c = '\n' || c = '\r'

/-- Python `s.strip()`. -/
def strTrim (s : String) : String :=
  String.mk (((s.data.dropWhile isWs).reverse.dropWhile isWs).reverse)

/-- Python `needle in hay` on strings: substring containment. -/
def strContains (hay needle : String) : Bool := decide (needle.data <:+: hay.data)

/-- Abstract distance function standing for the float-valued haversine in
the query operations: `D lat1 lon1 lat2 lon2`. -/
abbrev DistFn := ℚ → ℚ → ℚ → ℚ → ℚ

/-! ### Gazetteer data model (`geolocation_server`) -/

/-- Value part of one `PLACES` entry: lat/lon plus metadata. -/
structure Place where
  lat : ℚ
  lon : ℚ
  city : String
  type : String
  deriving Repr, DecidableEq

/-- The `PLACES` dict of `GeolocationServer`, in insertion order (Python
dicts preserve it, and the scan order of the tools follows it). -/
def PLACES : List (String × Place) :=
  [ ("AUB", ⟨33.901, 35.480, "Beirut", "university"⟩),
    ("Beirut", ⟨33.8938, 35.5018, "Beirut", "city"⟩),
    ("Baalbek", ⟨34.006, 36.203, "Baalbek", "city"⟩),
    ("Byblos", ⟨34.123, 35.651, "Byblos", "city"⟩),
    ("Sidon", ⟨33.560, 35.375, "Sidon", "city"⟩),
    ("Tyre", ⟨33.270, 35.196, "Tyre", "city"⟩),
    ("Zahle", ⟨33.850, 35.900, "Zahle", "city"⟩),
    ("Airport", ⟨33.8209, 35.4884, "Beirut", "airport"⟩),
    ("RHUH", ⟨33.871, 35.513, "Beirut", "hospital"⟩) ]

/-- Successful `geocode` result: `{"name", "lat", "lon", "meta"}`. -/
structure GeoHit where
  name : String
  lat : ℚ
  lon : ℚ
  meta : Place
  deriving Repr, DecidableEq

/-- Exact-phase test of `geocode`: `name.lower() == q`. -/
def geoExact (q : String) (np : String × Place) : Bool :=
  decide (strLower np.1 = q)

/-- Fallback-phase test of `geocode`: `q in name.lower() or q in city.lower()`. -/
def geoSub (q : String) (np : String × Place) : Bool :=
  strContains (strLower np.1) q || strContains (strLower np.2.city) q

/-- `GeolocationServer.geocode`: normalise the query, exact scan first,
substring scan second, `{"error": …}` if both fail. -/
def geocode (query : String) : Except String GeoHit :=
  let q := strLower (strTrim query)
  match PLACES.find? (geoExact q) with
  | some np => Except.ok ⟨np.1, np.2.lat, np.2.lon, np.2⟩
  | none =>
    match PLACES.find? (geoSub q) with
    | some np => Except.ok ⟨np.1, np.2.lat, np.2.lon, np.2⟩
    | none => Except.error ("No match found for '" ++ query ++ "'")

/-- Successful `reverse_geocode` payload (the `nearest_location` dict). -/
structure Nearest where
  name : String
  city : String
  type : String
  distance_km : ℚ
  lat : ℚ
  lon : ℚ
  deriving Repr, DecidableEq

/-- One step of the `reverse_geocode` scan: replace the best candidate only
on a strictly smaller distance (`if d < best_d`); starting from `best =
None, best_d = inf`, the first element always installs itself. -/
def bestStep (k : α → ℚ) (best : Option (α × ℚ)) (x : α) : Option (α × ℚ) :=
  match best with
  | none => some (x, k x)
  | some (b, bd) => if k x < bd then some (x, k x) else some (b, bd)

/-- The whole `reverse_geocode` scan over a table in fixed order. -/
def bestScan (k : α → ℚ) (l : List α) : Option (α × ℚ) :=
  l.foldl (bestStep k) none

/-- Distance from the query point to one `PLACES` entry. -/
def placeKey (D : DistFn) (lat lon : ℚ) (np : String × Place) : ℚ :=
  D lat lon np.2.lat np.2.lon

/-- `reverse_geocode` over an explicit table (the code closes over
`GeolocationServer.PLACES`; the table is a parameter here so that the
"no-match only on an empty table" part of the contract is statable). -/
def reverse_geocodeOn (D : DistFn) (table : List (String × Place)) (lat lon : ℚ) :
    Except String Nearest :=
  match bestScan (placeKey D lat lon) table with
  | none => Except.error "No places available."
  | some (np, bd) =>
      Except.ok ⟨np.1, np.2.city, np.2.type, round3 bd, np.2.lat, np.2.lon⟩

/-- `GeolocationServer.reverse_geocode`. -/
def reverse_geocode (D : DistFn) (lat lon : ℚ) : Except String Nearest :=
  reverse_geocodeOn D PLACES lat lon

/-! ### POI data model and `nearby_search` -/

/-- One entry of the `POIS` list. -/
structure Poi where
  name : String
  lat : ℚ
  lon : ℚ
  type : String
  deriving Repr, DecidableEq

/-- The `POIS` list of `GeolocationServer`, in source order. -/
def POIS : List Poi :=
  [ ⟨"AUBMC", 33.896, 35.478, "hospital"⟩,
    ⟨"Rafik Hariri Univ. Hospital (RHUH)", 33.871, 35.513, "hospital"⟩,
    ⟨"Hotel-Dieu de France", 33.8869, 35.5233, "hospital"⟩,
    ⟨"LAU Medical Center – Rizk Hospital", 33.8927, 35.5159, "hospital"⟩,
    ⟨"Baalbek Governmental Hospital", 34.010, 36.210, "hospital"⟩,
    ⟨"Zahle Governmental Hospital", 33.846, 35.904, "hospital"⟩,
    ⟨"American University of Beirut (AUB)", 33.901, 35.480, "university"⟩,
    ⟨"Lebanese American University (LAU) Beirut", 33.8957, 35.4865, "university"⟩,
    ⟨"Saint Joseph University (USJ) – Huvelin", 33.8934, 35.5103, "university"⟩,
    ⟨"Beirut Souks", 33.901, 35.504, "mall"⟩,
    ⟨"ABC Achrafieh", 33.886, 35.521, "mall"⟩,
    ⟨"ABC Verdun", 33.883, 35.486, "mall"⟩,
    ⟨"City Centre Beirut", 33.868, 35.535, "mall"⟩,
    ⟨"National Museum of Beirut", 33.8833, 35.5192, "museum"⟩,
    ⟨"Sursock Museum", 33.8920, 35.5171, "museum"⟩,
    ⟨"Byblos Archaeological Site", 34.1239, 35.6518, "museum"⟩,
    ⟨"Baalbek Roman Temples", 34.0060, 36.2030, "museum"⟩,
    ⟨"Forum de Beyrouth", 33.898, 35.535, "venue"⟩,
    ⟨"Beiteddine Palace (Chouf)", 33.694, 35.579, "museum"⟩,
    ⟨"Roman Hippodrome of Tyre", 33.263, 35.205, "museum"⟩,
    ⟨"Byblos Old Souk", 34.121, 35.648, "venue"⟩,
    ⟨"Al Madina Theatre", 33.8937, 35.4867, "theater"⟩,
    ⟨"Horsh Beirut", 33.8727, 35.5053, "park"⟩,
    ⟨"Rouche (Pigeon Rocks)", 33.8896, 35.4703, "park"⟩,
    ⟨"Tyre Beach (South)", 33.257, 35.214, "beach"⟩,
    ⟨"Ramlet el-Baida Beach", 33.8749, 35.4769, "beach"⟩,
    ⟨"Beirut–Rafic Hariri International Airport", 33.8209, 35.4884, "airport"⟩,
    ⟨"Charles Helou Bus Station", 33.8994, 35.5199, "venue"⟩,
    ⟨"Phoenicia Hotel Beirut", 33.9015, 35.4900, "hotel"⟩,
    ⟨"Le Gray (Downtown)", 33.8967, 35.5019, "hotel"⟩,
    ⟨"Tawlet Mar Mikhael", 33.8968, 35.5182, "restaurant"⟩,
    ⟨"Mayrig Gemmayze", 33.8944, 35.5148, "restaurant"⟩,
    ⟨"Zahle Wine House", 33.8465, 35.9035, "restaurant"⟩,
    ⟨"Pharmacy 24/7 Hamra", 33.8955, 35.4820, "pharmacy"⟩,
    ⟨"US Embassy (Awkar - approx)", 33.956, 35.589, "embassy"⟩,
    ⟨"French Embassy (Achrafieh - approx)", 33.888, 35.517, "embassy"⟩,
    ⟨"Camille Chamoun Sports City Stadium", 33.859, 35.494, "stadium"⟩ ]

/-- A POI as returned by `nearby_search`: a copy of the table entry with
the derived `distance_km` field appended (`entry = dict(poi)` plus
`entry["distance_km"]`). -/
structure PoiHit where
  name : String
  lat : ℚ
  lon : ℚ
  type : String
  distance_km : ℚ
  deriving Repr, DecidableEq

/-- The copy-with-extra-field constructor for `nearby_search` results. -/
def annotPoi (poi : Poi) (d : ℚ) : PoiHit :=
  ⟨poi.name, poi.lat, poi.lon, poi.type, d⟩

/-- Erasing the derived field recovers the stored entity. -/
def PoiHit.toPoi (e : PoiHit) : Poi := ⟨e.name, e.lat, e.lon, e.type⟩

/-- Echoed query block of `nearby_search` (`{"lat", "lon", "type",
"radius_km"}`, with the original un-normalised `poi_type`). -/
structure NearbyQuery where
  lat : ℚ
  lon : ℚ
  type : String
  radius_km : ℚ
  deriving Repr, DecidableEq

/-- Return value of `nearby_search`. -/
structure NearbyOut where
  query : NearbyQuery
  results : List PoiHit
  deriving Repr, DecidableEq

/-- The filtering loop of `nearby_search`: type must equal the normalised
`t` (case-insensitively, exact equality), distance must be `≤ radius_km`
(inclusive); survivors are annotated with the rounded distance. -/
def nearbyHits (D : DistFn) (lat lon : ℚ) (t : String) (radius_km : ℚ) : List PoiHit :=
  POIS.filterMap fun poi =>
    if strLower poi.type = t then
      (if D lat lon poi.lat poi.lon ≤ radius_km then
        some (annotPoi poi (round3 (D lat lon poi.lat poi.lon))) else none)
    else none

/-- Sort key relation of `hits.sort(key=lambda x: x["distance_km"])`. -/
def poiLe (a b : PoiHit) : Prop := a.distance_km ≤ b.distance_km

instance : DecidableRel poiLe :=
  fun a b => inferInstanceAs (Decidable (a.distance_km ≤ b.distance_km))

instance : IsTotal PoiHit poiLe := ⟨fun a b => le_total a.distance_km b.distance_km⟩

instance : IsTrans PoiHit poiLe := ⟨fun _ _ _ h h' => le_trans h h'⟩

/-- `GeolocationServer.nearby_search`.  `limit = none` models Python
`limit=None`; `some n` truncates with `hits[:limit]`. -/
def nearby_search (D : DistFn) (lat lon : ℚ) (poi_type : String) (radius_km : ℚ)
    (limit : Option ℕ) : NearbyOut :=
  let t := strLower (strTrim poi_type)
  let sorted := List.insertionSort poiLe (nearbyHits D lat lon t radius_km)
  { query := ⟨lat, lon, poi_type, radius_km⟩,
    results := match limit with | none => sorted | some n => sorted.take n }

/-! ### Historical event data model (`historical_map_server`) -/

/-- One entry of the `EVENTS` list. -/
structure Event where
  title : String
  year : ℤ
  lat : ℚ
  lon : ℚ
  region : String
  description : String
  deriving Repr, DecidableEq

/-- The `EVENTS` list of `HistoricalTimelineServer`, in source order. -/
def EVENTS : List Event :=
  [ ⟨"Founding of Beirut as a Roman colony", 14, 33.895, 35.480, "Beirut",
      "Beirut was declared a Roman colonia, marking its emergence as an imperial administrative center."⟩,
    ⟨"Beirut School of Law rises to prominence", 350, 33.896, 35.477, "Beirut",
      "The Beirut Law School shaped major Roman and Byzantine legal codes."⟩,
    ⟨"Byzantine earthquake devastates Beirut", 551, 33.895, 35.480, "Beirut",
      "A catastrophic earthquake destroyed parts of Roman Beirut."⟩,
    ⟨"Crusader conquest of Beirut", 1110, 33.901, 35.501, "Beirut",
      "Crusaders seized Beirut as part of expanding the Kingdom of Jerusalem."⟩,
    ⟨"Beirut port explosion", 2020, 33.901, 35.519, "Beirut",
      "A massive detonation reshaped the city's contemporary history."⟩,
    ⟨"Temple of Jupiter constructed", 60, 34.006, 36.203, "Baalbek",
      "The largest surviving Roman temple columns were erected here."⟩,
    ⟨"Temple of Bacchus completed", 150, 34.006, 36.203, "Baalbek",
      "One of the best-preserved ancient temples in the world."⟩,
    ⟨"Umayyad citadel reinforced", 685, 34.006, 36.203, "Baalbek",
      "Baalbek fortifications were expanded under early Islamic rule."⟩,
    ⟨"Ma'an dynasty rises", 1120, 33.694, 35.580, "Chouf",
      "The Ma'an family consolidated political power in Mount Lebanon."⟩,
    ⟨"Fakhreddine II reforms", 1623, 33.695, 35.580, "Chouf",
      "Economic and administrative reforms linked Mount Lebanon to Mediterranean trade."⟩,
    ⟨"Crusader County of Tripoli founded", 1109, 34.438, 35.830, "Tripoli",
      "Tripoli became the last major Crusader polity in the Levant."⟩,
    ⟨"Mamluk reconstruction of Tripoli", 1300, 34.438, 35.830, "Tripoli",
      "Mamluks rebuilt Tripoli inland after ending Crusader rule."⟩,
    ⟨"Phoenician expansion from Sidon", -900, 33.560, 35.375, "Sidon",
      "Sidon led major Phoenician maritime trade expansions across the Mediterranean."⟩,
    ⟨"Siege of Tyre by Alexander the Great", -332, 33.270, 35.196, "Tyre",
      "Alexander captured Tyre after constructing a causeway to the island city."⟩,
    ⟨"Byblos develops alphabetic writing", -1200, 34.123, 35.651, "Byblos",
      "Byblos played a key role in the evolution of the Phoenician alphabet."⟩,
    ⟨"Akkar on the frontier of Crusader Antioch", 1100, 34.590, 36.080, "Akkar",
      "A contested border zone between Crusaders and regional Islamic powers."⟩,
    ⟨"Anjar palace constructed", 715, 33.726, 35.929, "Bekaa",
      "Anjar was built under the Umayyads as a planned palace city."⟩,
    ⟨"Rise of Zahle as a trade center", 1700, 33.850, 35.900, "Zahle",
      "Zahle emerged as a major trade hub linking the Bekaa Valley with Beirut."⟩,
    ⟨"Lebanese Independence", 1943, 33.8889, 35.4944, "Lebanon",
      "Lebanon gained independence from the French Mandate."⟩,
    ⟨"End of Civil War", 1990, 33.888, 35.495, "Lebanon",
      "The Taif Agreement ended 15 years of civil conflict."⟩,
    ⟨"Cedar Revolution", 2005, 33.888, 35.495, "Lebanon",
      "Nationwide demonstrations reshaped Lebanon’s modern political landscape."⟩ ]

/-- The per-event test of `_filter_years`: skip when `start_year` is set
and `year < start_year`, skip when `end_year` is set and `year > end_year`. -/
def yearOkB (start_year end_year : Option ℤ) (y : ℤ) : Bool :=
  (match start_year with | none => true | some s => ! decide (y < s)) &&
  (match end_year with | none => true | some e => ! decide (e < y))

/-- `HistoricalTimelineServer._filter_years`. -/
def _filter_years (events : List Event) (start_year end_year : Option ℤ) : List Event :=
  events.filter fun ev => yearOkB start_year end_year ev.year

/-- An event as returned by `events_near_location`: copy of the stored
event with `distance_km` appended. -/
structure EventHit where
  title : String
  year : ℤ
  lat : ℚ
  lon : ℚ
  region : String
  description : String
  distance_km : ℚ
  deriving Repr, DecidableEq

/-- Copy-with-extra-field constructor for `events_near_location`. -/
def annotEvent (ev : Event) (d : ℚ) : EventHit :=
  ⟨ev.title, ev.year, ev.lat, ev.lon, ev.region, ev.description, d⟩

/-- Erasing the derived field recovers the stored event. -/
def EventHit.toEvent (e : EventHit) : Event :=
  ⟨e.title, e.year, e.lat, e.lon, e.region, e.description⟩

/-- Echoed query block of `events_near_location`. -/
structure EventsQuery where
  lat : ℚ
  lon : ℚ
  radius_km : ℚ
  deriving Repr, DecidableEq

/-- Return value of `events_near_location`. -/
structure EventsOut where
  query : EventsQuery
  events : List EventHit
  deriving Repr, DecidableEq

/-- Radius-filtering loop of `events_near_location`, applied after the
year filter; inclusive boundary, rounded annotation. -/
def eventsHits (D : DistFn) (lat lon radius_km : ℚ) (evs : List Event) : List EventHit :=
  evs.filterMap fun ev =>
    if D lat lon ev.lat ev.lon ≤ radius_km then
      some (annotEvent ev (round3 (D lat lon ev.lat ev.lon))) else none

/-- Sort key relation of `results.sort(key=lambda x: x["distance_km"])`. -/
def evDistLe (a b : EventHit) : Prop := a.distance_km ≤ b.distance_km

instance : DecidableRel evDistLe :=
  fun a b => inferInstanceAs (Decidable (a.distance_km ≤ b.distance_km))

instance : IsTotal EventHit evDistLe := ⟨fun a b => le_total a.distance_km b.distance_km⟩

instance : IsTrans EventHit evDistLe := ⟨fun _ _ _ h h' => le_trans h h'⟩

/-- `events_near_location`: year filter first, then radius filter, then
sort ascending by distance. -/
def events_near_location (D : DistFn) (lat lon : ℚ) (radius_km : ℚ)
    (start_year end_year : Option ℤ) : EventsOut :=
  let evs := _filter_years EVENTS start_year end_year
  { query := ⟨lat, lon, radius_km⟩,
    events := List.insertionSort evDistLe (eventsHits D lat lon radius_km evs) }

/-- Return value of `region_timeline` (`{"region", "timeline"}`). -/
structure RegionOut where
  region : String
  timeline : List Event
  deriving Repr, DecidableEq

/-- Region test of `region_timeline`: `r in ev["region"].lower()` with
`r = region_name.lower()` (substring, case-insensitive, no trimming). -/
def regionMatch (r : String) (ev : Event) : Bool := strContains (strLower ev.region) r

/-- Sort key relation of `matches.sort(key=lambda x: x["year"])`. -/
def evYearLe (a b : Event) : Prop := a.year ≤ b.year

instance : DecidableRel evYearLe :=
  fun a b => inferInstanceAs (Decidable (a.year ≤ b.year))

instance : IsTotal Event evYearLe := ⟨fun a b => le_total a.year b.year⟩

instance : IsTrans Event evYearLe := ⟨fun _ _ _ h h' => le_trans h h'⟩

/-- `region_timeline`: substring region match, year filter, chronological
sort, truncation to `limit`. -/
def region_timeline (region_name : String) (start_year end_year : Option ℤ)
    (limit : Option ℕ) : RegionOut :=
  let r := strLower region_name
  let matched := EVENTS.filter (regionMatch r)
  let sorted := List.insertionSort evYearLe (_filter_years matched start_year end_year)
  { region := region_name,
    timeline := match limit with | none => sorted | some n => sorted.take n }

/-! ### Route-corridor analysis -/

/-- An event as returned by `route_history_summary`: copy of the stored
event with `distance_to_route_km` appended. -/
structure RouteHit where
  title : String
  year : ℤ
  lat : ℚ
  lon : ℚ
  region : String
  description : String
  distance_to_route_km : ℚ
  deriving Repr, DecidableEq

/-- Copy-with-extra-field constructor for `route_history_summary`. -/
def annotRoute (ev : Event) (d : ℚ) : RouteHit :=
  ⟨ev.title, ev.year, ev.lat, ev.lon, ev.region, ev.description, d⟩

/-- Erasing the derived field recovers the stored event. -/
def RouteHit.toEvent (e : RouteHit) : Event :=
  ⟨e.title, e.year, e.lat, e.lon, e.region, e.description⟩

/-- Return value of `route_history_summary`.  `corridor_km` is an
`Option` because the degenerate (`len(path) < 2`) branch of the code
returns a dict *without* the `"corridor_km"` key. -/
structure RouteOut where
  path_length_km : ℚ
  corridor_km : Option ℚ
  selected_events : List RouteHit
  summary : String
  deriving Repr, DecidableEq

/-- Polyline length: sum of `D` over consecutive path vertices (the
`for i in range(len(path) - 1)` loop). -/
def pathLen (D : DistFn) : List (ℚ × ℚ) → ℚ
  | p :: q :: rest => D p.1 p.2 q.1 q.2 + pathLen D (q :: rest)
  | _ => 0

/-- Python `min` over a nonempty list of values with a given head. -/
def foldMin (x : ℚ) (xs : List ℚ) : ℚ := xs.foldl min x

/-- The `min(distance to every path vertex)` of `route_history_summary`.
The `[]` case is never reached: the main branch runs with
`2 ≤ path.length` (Python `min` of an empty sequence would raise). -/
def minVertexDist (D : DistFn) (path : List (ℚ × ℚ)) (elat elon : ℚ) : ℚ :=
  match path.map (fun p => D p.1 p.2 elat elon) with
  | [] => 0
  | x :: xs => foldMin x xs

/-- Corridor-filtering loop of `route_history_summary`: keep events whose
minimum vertex distance is `≤ corridor_km`, annotated with the rounded
minimum. -/
def routeNearby (D : DistFn) (path : List (ℚ × ℚ)) (corridor_km : ℚ) : List RouteHit :=
  EVENTS.filterMap fun ev =>
    if minVertexDist D path ev.lat ev.lon ≤ corridor_km then
      some (annotRoute ev (round3 (minVertexDist D path ev.lat ev.lon))) else none

/-- Sort key relation of `nearby.sort(key=lambda x: x["year"])`. -/
def routeYearLe (a b : RouteHit) : Prop := a.year ≤ b.year

instance : DecidableRel routeYearLe :=
  fun a b => inferInstanceAs (Decidable (a.year ≤ b.year))

instance : IsTotal RouteHit routeYearLe := ⟨fun a b => le_total a.year b.year⟩

instance : IsTrans RouteHit routeYearLe := ⟨fun _ _ _ h h' => le_trans h h'⟩

/-- The chronologically sorted corridor events. -/
def routeSorted (D : DistFn) (path : List (ℚ × ℚ)) (corridor_km : ℚ) : List RouteHit :=
  List.insertionSort routeYearLe (routeNearby D path corridor_km)

/-- The narrative f-string of the populated branch: distinct regions, then
the earliest and latest year among the selected events. -/
def routeNarrative (regions : List String) (earliest latest : ℤ) : String :=
  "This route intersects historically significant regions including " ++
    String.intercalate ", " regions ++ ". Events span from " ++ toString earliest ++
    " to " ++ toString latest ++
    ", covering Phoenician, Hellenistic, Roman, Byzantine, Islamic, " ++
    "Mamluk, Ottoman, and modern Lebanese periods."

/-- `sorted({ev["region"] for ev in nearby})`: distinct regions in
alphabetical order. -/
def routeRegions (l : List RouteHit) : List String :=
  List.insertionSort (· ≤ ·) (l.map RouteHit.region).dedup

/-- Narrative of `route_history_summary`: populated branch when any event
qualifies, fixed message otherwise. -/
def routeSummaryStr (D : DistFn) (path : List (ℚ × ℚ)) (corridor_km : ℚ) : String :=
  match routeSorted D path corridor_km with
  | [] => "No historical events fall within the specified corridor."
  | f :: rest => routeNarrative (routeRegions (f :: rest)) f.year ((rest.getLastD f).year)

/-- `route_history_summary`.  The degenerate branch (`len(path) < 2`)
returns `{"selected_events": [], "summary": …, "path_length_km": 0}`,
which carries no `"corridor_km"` key, hence `corridor_km := none`. -/
def route_history_summary (D : DistFn) (path : List (ℚ × ℚ)) (corridor_km : ℚ) : RouteOut :=
  if path.length < 2 then
    { path_length_km := 0, corridor_km := none, selected_events := [],
      summary := "Route is too short for evaluation." }
  else
    { path_length_km := round3 (pathLen D path),
      corridor_km := some corridor_km,
      selected_events := routeSorted D path corridor_km,
      summary := routeSummaryStr D path corridor_km }

/-! ### The haversine formula over `ℝ` (claim C8) -/

/-- Python `math.radians`. -/
noncomputable def radiansR (x : ℝ) : ℝ := x * Real.pi / 180

/-- The haversine intermediate value `a` shared verbatim by the two
Python copies of the formula. -/
noncomputable def havA (lat1 lon1 lat2 lon2 : ℝ) : ℝ :=
  Real.sin (radiansR (lat2 - lat1) / 2) ^ 2 +
    Real.cos (radiansR lat1) * Real.cos (radiansR lat2) *
      Real.sin (radiansR (lon2 - lon1) / 2) ^ 2

/-- `GeolocationServer._haversine_km` (Earth radius `6371.0`). -/
noncomputable def _haversine_km (lat1 lon1 lat2 lon2 : ℝ) : ℝ :=
  2.0 * 6371.0 * Real.arcsin (Real.sqrt (havA lat1 lon1 lat2 lon2))

/-- `HistoricalTimelineServer._distance_km` (Earth radius `6371`, the
same formula). -/
noncomputable def _distance_km (lat1 lon1 lat2 lon2 : ℝ) : ℝ :=
  2 * 6371 * Real.arcsin (Real.sqrt (havA lat1 lon1 lat2 lon2))

/-! ### Packaged claim statements -/

/-- Claim C4's property of `geocode`: first exact match in table order,
else first substring match, else the no-match error value carrying the
original query. -/
def GeocodeSpec (query : String) : Prop :=
  let q := strLower (strTrim query)
  (∃ l₁ np l₂, PLACES = l₁ ++ np :: l₂ ∧ geoExact q np = true ∧
      (∀ x ∈ l₁, geoExact q x = false) ∧
      geocode query = Except.ok ⟨np.1, np.2.lat, np.2.lon, np.2⟩) ∨
  ((∀ np ∈ PLACES, geoExact q np = false) ∧
    ∃ l₁ np l₂, PLACES = l₁ ++ np :: l₂ ∧ geoSub q np = true ∧
      (∀ x ∈ l₁, geoSub q x = false) ∧
      geocode query = Except.ok ⟨np.1, np.2.lat, np.2.lon, np.2⟩) ∨
  ((∀ np ∈ PLACES, geoExact q np = false ∧ geoSub q np = false) ∧
    geocode query = Except.error ("No match found for '" ++ query ++ "'"))

/-- Claim C2's property of `reverse_geocode` over a table: error exactly
on the empty table; otherwise the returned place minimises the distance,
every strictly earlier entry of the table is strictly farther (first wins
among equidistant entries), and the record carries name, city, type,
coordinates and the rounded distance. -/
def ReverseGeocodeSpec (D : DistFn) (table : List (String × Place)) (lat lon : ℚ) : Prop :=
  (table = [] → reverse_geocodeOn D table lat lon = Except.error "No places available.") ∧
  (table ≠ [] → ∃ l₁ np l₂, table = l₁ ++ np :: l₂ ∧
      reverse_geocodeOn D table lat lon =
        Except.ok ⟨np.1, np.2.city, np.2.type, round3 (placeKey D lat lon np),
          np.2.lat, np.2.lon⟩ ∧
      (∀ x ∈ table, placeKey D lat lon np ≤ placeKey D lat lon x) ∧
      (∀ x ∈ l₁, placeKey D lat lon np < placeKey D lat lon x))

/-- Claim C3's property of `nearby_search`: echoed query, results sorted
ascending by the annotated distance, membership exactly the
type-and-radius survivors (annotated with the rounded distance), ties in
the sort key kept in original table order (stability, phrased per key
value), truncation to the first `limit` entries. -/
def NearbySpec (D : DistFn) (lat lon : ℚ) (poi_type : String) (radius_km : ℚ)
    (limit : Option ℕ) : Prop :=
  let t := strLower (strTrim poi_type)
  let out := nearby_search D lat lon poi_type radius_km limit
  let full := (nearby_search D lat lon poi_type radius_km none).results
  out.query = ⟨lat, lon, poi_type, radius_km⟩ ∧
  List.Sorted poiLe out.results ∧
  (∀ e, e ∈ full ↔ ∃ poi, poi ∈ POIS ∧ strLower poi.type = t ∧
      D lat lon poi.lat poi.lon ≤ radius_km ∧
      e = annotPoi poi (round3 (D lat lon poi.lat poi.lon))) ∧
  (∀ c, full.filter (fun e => decide (e.distance_km = c)) =
      (nearbyHits D lat lon t radius_km).filter (fun e => decide (e.distance_km = c))) ∧
  (∀ n, limit = some n → out.results = full.take n)

/-- Claim C5's property of `events_near_location`: echoed query, events
sorted ascending by the annotated distance, membership exactly the events
passing the inclusive optional year bounds and the inclusive radius,
annotated with the rounded distance. -/
def EventsNearSpec (D : DistFn) (lat lon radius_km : ℚ)
    (start_year end_year : Option ℤ) : Prop :=
  let out := events_near_location D lat lon radius_km start_year end_year
  out.query = ⟨lat, lon, radius_km⟩ ∧
  List.Sorted evDistLe out.events ∧
  (∀ e, e ∈ out.events ↔ ∃ ev, ev ∈ EVENTS ∧
      (∀ s, start_year = some s → s ≤ ev.year) ∧
      (∀ t, end_year = some t → ev.year ≤ t) ∧
      D lat lon ev.lat ev.lon ≤ radius_km ∧
      e = annotEvent ev (round3 (D lat lon ev.lat ev.lon)))

/-- Claim C6's property of `region_timeline`: echoed region name, timeline
sorted ascending by year, membership exactly the events whose region
contains the query as a substring (case-insensitively) and which pass the
inclusive optional year bounds, truncation to the first `limit` entries. -/
def RegionTimelineSpec (region_name : String) (start_year end_year : Option ℤ)
    (limit : Option ℕ) : Prop :=
  let out := region_timeline region_name start_year end_year limit
  let full := (region_timeline region_name start_year end_year none).timeline
  out.region = region_name ∧
  List.Sorted evYearLe out.timeline ∧
  (∀ ev, ev ∈ full ↔ ev ∈ EVENTS ∧ regionMatch (strLower region_name) ev = true ∧
      (∀ s, start_year = some s → s ≤ ev.year) ∧
      (∀ t, end_year = some t → ev.year ≤ t)) ∧
  (∀ n, limit = some n → out.timeline = full.take n)

/-- Claim C1's property of `route_history_summary` on a path with at least
two vertices: the result carries the corridor threshold, the rounded sum
of consecutive-vertex distances, exactly the events whose minimum vertex
distance is within the corridor (annotated with that rounded minimum),
sorted ascending by year; the narrative lists the distinct regions in
alphabetical order with the minimum and maximum year when any event
qualifies, and is the fixed message otherwise. -/
def RouteSummarySpec (D : DistFn) (path : List (ℚ × ℚ)) (corridor_km : ℚ) : Prop :=
  let out := route_history_summary D path corridor_km
  out.corridor_km = some corridor_km ∧
  out.path_length_km =
    round3 (((path.zip path.tail).map (fun pq => D pq.1.1 pq.1.2 pq.2.1 pq.2.2)).sum) ∧
  (∀ e, e ∈ out.selected_events ↔ ∃ ev, ev ∈ EVENTS ∧
      minVertexDist D path ev.lat ev.lon ≤ corridor_km ∧
      e = annotRoute ev (round3 (minVertexDist D path ev.lat ev.lon))) ∧
  List.Sorted routeYearLe out.selected_events ∧
  (out.selected_events = [] →
    out.summary = "No historical events fall within the specified corridor.") ∧
  (∀ f rest, out.selected_events = f :: rest →
    ∃ regions latest,
      out.summary = routeNarrative regions f.year latest ∧
      List.Sorted (· ≤ ·) regions ∧ regions.Nodup ∧
      (∀ s, s ∈ regions ↔ s ∈ out.selected_events.map RouteHit.region) ∧
      (∀ e ∈ out.selected_events, f.year ≤ e.year ∧ e.year ≤ latest) ∧
      (∃ e, e ∈ out.selected_events ∧ e.year = latest))

/-- Claim C7 (amended): the degenerate result for a path with fewer than
two vertices — zero length, empty event list, the explicit note, and *no*
corridor field. -/
def RouteDegenerateSpec (D : DistFn) (path : List (ℚ × ℚ)) (corridor_km : ℚ) : Prop :=
  route_history_summary D path corridor_km =
    { path_length_km := 0, corridor_km := none, selected_events := [],
      summary := "Route is too short for evaluation." }

/-- A concrete distance function used to instantiate the parametric
claim theorems in their witnesses. -/
def Dzero : DistFn := fun _ _ _ _ => 0

/-! ### Helper lemmas -/

/-- The strict-`<` best-of scan, started from an installed candidate
`(a, k a)`: it ends on a candidate of minimal key, and replaces the
accumulator only for a strictly smaller key, so on ties the earlier
element survives. -/
theorem bestScan_go (k : α → ℚ) :
    ∀ (l : List α) (a : α),
    ∃ b, l.foldl (bestStep k) (some (a, k a)) = some (b, k b) ∧
      k b ≤ k a ∧ (∀ y ∈ l, k b ≤ k y) ∧
      (b = a ∨ ∃ l₁ l₂, l = l₁ ++ b :: l₂ ∧ k b < k a ∧ (∀ y ∈ l₁, k b < k y)) := by
  intro l
  induction l with
  | nil => exact fun a => ⟨a, rfl, le_refl _, by simp, Or.inl rfl⟩
  | cons x xs ih =>
    intro a
    by_cases hx : k x < k a
    · obtain ⟨b, hb, hbx, hball, hdisj⟩ := ih x
      have hstep : (x :: xs).foldl (bestStep k) (some (a, k a)) =
          xs.foldl (bestStep k) (some (x, k x)) := by
        simp [bestStep, hx]
      refine ⟨b, hstep.trans hb, le_of_lt (lt_of_le_of_lt hbx hx), ?_, ?_⟩
      · intro y hy
        rcases List.mem_cons.mp hy with rfl | h
        · exact hbx
        · exact hball y h
      · right
        rcases hdisj with rfl | ⟨m₁, m₂, hm, hlt, hm₁⟩
        · exact ⟨[], xs, by simp, hx, by simp⟩
        · refine ⟨x :: m₁, m₂, by rw [hm]; rfl, lt_trans hlt hx, ?_⟩
          intro y hy
          rcases List.mem_cons.mp hy with rfl | h
          · exact hlt
          · exact hm₁ y h
    · obtain ⟨b, hb, hba, hball, hdisj⟩ := ih a
      have hax : k a ≤ k x := not_lt.mp hx
      have hstep : (x :: xs).foldl (bestStep k) (some (a, k a)) =
          xs.foldl (bestStep k) (some (a, k a)) := by
        simp [bestStep, hx]
      refine ⟨b, hstep.trans hb, hba, ?_, ?_⟩
      · intro y hy
        rcases List.mem_cons.mp hy with rfl | h
        · exact le_trans hba hax
        · exact hball y h
      · rcases hdisj with rfl | ⟨m₁, m₂, hm, hlt, hm₁⟩
        · exact Or.inl rfl
        · refine Or.inr ⟨x :: m₁, m₂, by rw [hm]; rfl, hlt, ?_⟩
          intro y hy
          rcases List.mem_cons.mp hy with rfl | h
          · exact lt_of_lt_of_le hlt hax
          · exact hm₁ y h

/-- On a nonempty table the scan returns the first entry of minimal key:
its key is a lower bound of every entry, and every strictly earlier entry
has a strictly larger key. -/
theorem bestScan_spec (k : α → ℚ) (l : List α) (h : l ≠ []) :
    ∃ l₁ b l₂, l = l₁ ++ b :: l₂ ∧ bestScan k l = some (b, k b) ∧
      (∀ y ∈ l, k b ≤ k y) ∧ (∀ y ∈ l₁, k b < k y) := by
  match l, h with
  | x :: xs, _ =>
    obtain ⟨b, hb, hbx, hball, hdisj⟩ := bestScan_go k xs x
    have hscan : bestScan k (x :: xs) = xs.foldl (bestStep k) (some (x, k x)) := rfl
    rcases hdisj with rfl | ⟨m₁, m₂, hm, hlt, hm₁⟩
    · refine ⟨[], b, xs, by simp, hscan.trans hb, ?_, by simp⟩
      intro y hy
      rcases List.mem_cons.mp hy with rfl | h
      · exact le_refl _
      · exact hball y h
    · refine ⟨x :: m₁, b, m₂, by rw [hm]; rfl, hscan.trans hb, ?_, ?_⟩
      · intro y hy
        rcases List.mem_cons.mp hy with rfl | h
        · exact le_of_lt hlt
        · exact hball y h
      · intro y hy
        rcases List.mem_cons.mp hy with rfl | h
        · exact hlt
        · exact hm₁ y h

/-- Stability of one ordered insertion, phrased per key value: the
elements of key `c` keep their order, with `x` in front exactly when its
key is `c` (everything `x` jumps over has a strictly smaller key). -/
theorem orderedInsert_filter_key {α : Type} {β : Type} [LinearOrder β] [DecidableEq β]
    (k : α → β) (r : α → α → Prop) [DecidableRel r]
    (hr : ∀ a b, r a b ↔ k a ≤ k b) (c : β) (x : α) (l : List α) :
    (List.orderedInsert r x l).filter (fun a => decide (k a = c)) =
      if k x = c then x :: l.filter (fun a => decide (k a = c))
      else l.filter (fun a => decide (k a = c)) := by
  induction l with
  | nil =>
    by_cases hc : k x = c <;> simp [List.orderedInsert, List.filter_cons, hc]
  | cons y ys ih =>
    by_cases hxy : r x y
    · by_cases hc : k x = c <;>
        simp [List.orderedInsert, if_pos hxy, List.filter_cons, hc]
    · have hyx : k y < k x := lt_of_not_le (fun h => hxy ((hr x y).mpr h))
      by_cases hc : k x = c
      · have hyc : ¬ (k y = c) := fun h => absurd (hc ▸ h ▸ hyx) (lt_irrefl _)
        simp [List.orderedInsert, if_neg hxy, List.filter_cons, hyc, ih, hc]
      · by_cases hyc : k y = c <;>
          simp [List.orderedInsert, if_neg hxy, List.filter_cons, hyc, ih, hc]

/-- Stability of insertion sort, phrased per key value: for every key
value `c`, the sorted list restricted to key `c` equals the input
restricted to key `c` — equal keys stay in input order. -/
theorem insertionSort_filter_key {α : Type} {β : Type} [LinearOrder β] [DecidableEq β]
    (k : α → β) (r : α → α → Prop) [DecidableRel r]
    (hr : ∀ a b, r a b ↔ k a ≤ k b) (c : β) (l : List α) :
    (List.insertionSort r l).filter (fun a => decide (k a = c)) =
      l.filter (fun a => decide (k a = c)) := by
  induction l with
  | nil => rfl
  | cons x xs ih =>
    have h := orderedInsert_filter_key k r hr c x (List.insertionSort r xs)
    by_cases hc : k x = c <;>
      simp only [List.insertionSort, h, if_pos, if_neg, hc, ih, List.filter_cons,
        decide_eq_true_eq, if_true, if_false]

/-- Python `min` over a nonempty sequence: the result is one of the
values and a lower bound of all of them. -/
theorem foldMin_spec : ∀ (xs : List ℚ) (x : ℚ),
    (foldMin x xs = x ∨ foldMin x xs ∈ xs) ∧ foldMin x xs ≤ x ∧
      ∀ y ∈ xs, foldMin x xs ≤ y := by
  intro xs
  induction xs with
  | nil => exact fun x => ⟨Or.inl rfl, le_refl _, by simp⟩
  | cons y ys ih =>
    intro x
    have h1 : foldMin x (y :: ys) = foldMin (min x y) ys := rfl
    obtain ⟨hmem, hle, hall⟩ := ih (min x y)
    refine ⟨?_, ?_, ?_⟩
    · rcases hmem with h | h
      · rcases le_total x y with hxy | hyx
        · exact Or.inl (by rw [h1, h, min_eq_left hxy])
        · exact Or.inr (by rw [h1, h, min_eq_right hyx]; exact List.mem_cons_self y ys)
      · exact Or.inr (List.mem_cons_of_mem y (h1 ▸ h))
    · exact h1 ▸ le_trans hle (min_le_left x y)
    · intro z hz
      rcases List.mem_cons.mp hz with rfl | h
      · exact h1 ▸ le_trans hle (min_le_right x z)
      · exact h1 ▸ hall z h

/-- The recursive polyline length equals the sum over consecutive
vertex pairs. -/
theorem pathLen_eq (D : DistFn) (l : List (ℚ × ℚ)) :
    pathLen D l = ((l.zip l.tail).map (fun pq => D pq.1.1 pq.1.2 pq.2.1 pq.2.2)).sum := by
  induction l with
  | nil => rfl
  | cons p t ih =>
    cases t with
    | nil => rfl
    | cons q rest =>
      simp only [pathLen, ih, List.tail_cons, List.zip_cons_cons, List.map_cons,
        List.sum_cons]

/-- The `_filter_years` per-event test, as the two inclusive optional
bounds of the spec. -/
theorem yearOkB_iff (sy ey : Option ℤ) (y : ℤ) :
    yearOkB sy ey y = true ↔
      (∀ s, sy = some s → s ≤ y) ∧ (∀ t, ey = some t → y ≤ t) := by
  cases sy <;> cases ey <;> simp [yearOkB, not_lt]

/-- In a list sorted by year, the head's year is minimal. -/
theorem sorted_route_head (f : RouteHit) (rest : List RouteHit)
    (h : List.Sorted routeYearLe (f :: rest)) : ∀ e ∈ f :: rest, f.year ≤ e.year := by
  intro e he
  rcases List.mem_cons.mp he with rfl | he'
  · exact le_refl _
  · exact (List.sorted_cons.mp h).1 e he'

/-- In a list sorted by year, the last element's year is maximal. -/
theorem sorted_route_last : ∀ (rest : List RouteHit) (f : RouteHit),
    List.Sorted routeYearLe (f :: rest) →
      ∀ e ∈ f :: rest, e.year ≤ (rest.getLastD f).year := by
  intro rest
  induction rest with
  | nil =>
    intro f _ e he
    rcases List.mem_cons.mp he with rfl | he'
    · exact le_refl _
    · exact absurd he' (List.not_mem_nil e)
  | cons g t ih =>
    intro f hs e he
    have hgt : List.Sorted routeYearLe (g :: t) := (List.sorted_cons.mp hs).2
    have hfg : routeYearLe f g := (List.sorted_cons.mp hs).1 g (List.mem_cons_self g t)
    rw [List.getLastD_cons]
    rcases List.mem_cons.mp he with rfl | he'
    · exact le_trans hfg (ih g hgt g (List.mem_cons_self g t))
    · exact ih g hgt e he'

/-- `getLastD` picks an element of the nonempty list. -/
theorem getLastD_mem_cons' : ∀ (t : List α) (f : α), t.getLastD f ∈ f :: t := by
  intro t
  induction t with
  | nil => intro f; simp [List.getLastD]
  | cons g t ih =>
    intro f
    rw [List.getLastD_cons]
    exact List.mem_cons_of_mem f (ih g)

/-! ### Claim theorems -/

/-- C8: the haversine implementation with Earth radius 6371.0 km is zero
on equal points, symmetric, nonnegative for all real inputs (it is a total
function, so it succeeds without validating coordinate ranges), and the
second textual copy `_distance_km` computes the same function — a single
distance formula. -/
theorem haversine_contract (lat1 lon1 lat2 lon2 : ℝ) :
    _haversine_km lat1 lon1 lat1 lon1 = 0 ∧
    _haversine_km lat1 lon1 lat2 lon2 = _haversine_km lat2 lon2 lat1 lon1 ∧
    0 ≤ _haversine_km lat1 lon1 lat2 lon2 ∧
    _distance_km lat1 lon1 lat2 lon2 = _haversine_km lat1 lon1 lat2 lon2 := by
  have key : ∀ x y : ℝ,
      Real.sin (radiansR (x - y) / 2) ^ 2 = Real.sin (radiansR (y - x) / 2) ^ 2 := by
    intro x y
    have h : radiansR (x - y) = -(radiansR (y - x)) := by
      unfold radiansR; ring
    rw [h, neg_div, Real.sin_neg, neg_sq]
  refine ⟨?_, ?_, ?_, ?_⟩
  · have hA : havA lat1 lon1 lat1 lon1 = 0 := by
      simp [havA, radiansR, sub_self]
    simp [_haversine_km, hA, Real.sqrt_zero, Real.arcsin_zero]
  · have hsym : havA lat1 lon1 lat2 lon2 = havA lat2 lon2 lat1 lon1 := by
      unfold havA
      rw [key lat2 lat1, key lon2 lon1,
        mul_comm (Real.cos (radiansR lat1)) (Real.cos (radiansR lat2))]
    unfold _haversine_km
    rw [hsym]
  · exact mul_nonneg (by norm_num)
      (Real.arcsin_nonneg.mpr (Real.sqrt_nonneg _))
  · unfold _haversine_km _distance_km
    norm_num

/-- C4: `geocode` normalises by trimming and lower-casing, returns the
first exact name match in table order, otherwise the first name-or-city
substring match, otherwise the no-match error value carrying the original
query (no exception); and `geocode "aub"` equals `geocode "AUB"`. -/
theorem geocode_meets_spec :
    (∀ query, GeocodeSpec query) ∧ geocode "aub" = geocode "AUB" := by
  constructor
  · intro query
    unfold GeocodeSpec
    rcases hfind : PLACES.find? (geoExact (strLower (strTrim query))) with _ | np
    · have hnoex : ∀ np ∈ PLACES, geoExact (strLower (strTrim query)) np = false :=
        fun np h => by simpa using List.find?_eq_none.mp hfind np h
      rcases hfind2 : PLACES.find? (geoSub (strLower (strTrim query))) with _ | np
      · refine Or.inr (Or.inr ⟨?_, ?_⟩)
        · intro np h
          exact ⟨hnoex np h, by simpa using List.find?_eq_none.mp hfind2 np h⟩
        · simp only [geocode]
          rw [hfind, hfind2]
      · obtain ⟨hp, l₁, l₂, hsplit, hprev⟩ := List.find?_eq_some.mp hfind2
        refine Or.inr (Or.inl ⟨hnoex, l₁, np, l₂, hsplit, hp, ?_, ?_⟩)
        · intro x hx
          simpa using hprev x hx
        · simp only [geocode]
          rw [hfind, hfind2]
    · obtain ⟨hp, l₁, l₂, hsplit, hprev⟩ := List.find?_eq_some.mp hfind
      refine Or.inl ⟨l₁, np, l₂, hsplit, hp, ?_, ?_⟩
      · intro x hx
        simpa using hprev x hx
      · simp only [geocode]
        rw [hfind]
  · rfl

/-- C2: `reverse_geocode` over any table returns the entry minimising the
distance, scanning in fixed order with strict `<` so the first of several
equidistant entries wins; the record carries name, city, type, coordinates
and the distance rounded to three decimals; the no-match error occurs
exactly when the table is empty. -/
theorem reverse_geocode_meets_spec (D : DistFn) (table : List (String × Place))
    (lat lon : ℚ) : ReverseGeocodeSpec D table lat lon := by
  constructor
  · rintro rfl
    rfl
  · intro hne
    obtain ⟨l₁, b, l₂, hsplit, hscan, hmin, hfirst⟩ :=
      bestScan_spec (placeKey D lat lon) table hne
    refine ⟨l₁, b, l₂, hsplit, ?_, hmin, hfirst⟩
    unfold reverse_geocodeOn
    rw [hscan]

/-- C10: over the fixed nonempty `PLACES` table the defensive
`{"error": "No places available."}` branch of `reverse_geocode` is
unreachable — every query point yields a nearest-location record. -/
theorem reverse_geocode_error_unreachable (D : DistFn) (lat lon : ℚ) :
    ∃ r, reverse_geocode D lat lon = Except.ok r := by
  have hne : PLACES ≠ [] := by simp [PLACES]
  obtain ⟨l₁, b, l₂, _, hscan, _, _⟩ := bestScan_spec (placeKey D lat lon) PLACES hne
  refine ⟨⟨b.1, b.2.city, b.2.type, round3 (placeKey D lat lon b), b.2.lat, b.2.lon⟩, ?_⟩
  unfold reverse_geocode reverse_geocodeOn
  rw [hscan]

/-- C3: `nearby_search` keeps exactly the POIs whose type equals the
normalised query type and whose distance is within the inclusive radius,
sorts ascending by the annotated distance with ties kept in table order,
truncates to the first `limit` entries, and echoes the query parameters in
a non-error result. -/
theorem nearby_search_meets_spec (D : DistFn) (lat lon : ℚ) (poi_type : String)
    (radius_km : ℚ) (limit : Option ℕ) :
    NearbySpec D lat lon poi_type radius_km limit := by
  simp only [NearbySpec]
  refine ⟨rfl, ?_, ?_, ?_, ?_⟩
  · cases limit with
    | none => exact List.sorted_insertionSort poiLe _
    | some n =>
      exact List.Pairwise.sublist (List.take_sublist n _)
        (List.sorted_insertionSort poiLe _)
  · intro e
    have h : (nearby_search D lat lon poi_type radius_km none).results =
        List.insertionSort poiLe
          (nearbyHits D lat lon (strLower (strTrim poi_type)) radius_km) := rfl
    rw [h, List.mem_insertionSort]
    unfold nearbyHits
    rw [List.mem_filterMap]
    constructor
    · rintro ⟨poi, hpoi, hf⟩
      by_cases h1 : strLower poi.type = strLower (strTrim poi_type)
      · rw [if_pos h1] at hf
        by_cases h2 : D lat lon poi.lat poi.lon ≤ radius_km
        · rw [if_pos h2] at hf
          injection hf with hf
          exact ⟨poi, hpoi, h1, h2, hf.symm⟩
        · rw [if_neg h2] at hf
          exact absurd hf (by simp)
      · rw [if_neg h1] at hf
        exact absurd hf (by simp)
    · rintro ⟨poi, hpoi, h1, h2, rfl⟩
      exact ⟨poi, hpoi, by rw [if_pos h1, if_pos h2]⟩
  · intro c
    have h : (nearby_search D lat lon poi_type radius_km none).results =
        List.insertionSort poiLe
          (nearbyHits D lat lon (strLower (strTrim poi_type)) radius_km) := rfl
    rw [h]
    exact insertionSort_filter_key PoiHit.distance_km poiLe (fun a b => Iff.rfl) c _
  · rintro n rfl
    rfl

/-- C5: `events_near_location` applies the inclusive optional year bounds,
keeps exactly the events within the inclusive radius annotated with the
rounded distance, sorts ascending by distance, and echoes the query; an
empty list is the regular non-error result. -/
theorem events_near_location_meets_spec (D : DistFn) (lat lon radius_km : ℚ)
    (start_year end_year : Option ℤ) :
    EventsNearSpec D lat lon radius_km start_year end_year := by
  simp only [EventsNearSpec]
  refine ⟨rfl, ?_, ?_⟩
  · exact List.sorted_insertionSort evDistLe _
  · intro e
    have h : (events_near_location D lat lon radius_km start_year end_year).events =
        List.insertionSort evDistLe
          (eventsHits D lat lon radius_km (_filter_years EVENTS start_year end_year)) := rfl
    rw [h, List.mem_insertionSort]
    unfold eventsHits
    rw [List.mem_filterMap]
    constructor
    · rintro ⟨ev, hev, hf⟩
      have hmem := List.mem_filter.mp hev
      obtain ⟨hy1, hy2⟩ := (yearOkB_iff start_year end_year ev.year).mp hmem.2
      by_cases h2 : D lat lon ev.lat ev.lon ≤ radius_km
      · rw [if_pos h2] at hf
        injection hf with hf
        exact ⟨ev, hmem.1, hy1, hy2, h2, hf.symm⟩
      · rw [if_neg h2] at hf
        exact absurd hf (by simp)
    · rintro ⟨ev, hev, hy1, hy2, h2, rfl⟩
      refine ⟨ev, ?_, by rw [if_pos h2]⟩
      exact List.mem_filter.mpr
        ⟨hev, (yearOkB_iff start_year end_year ev.year).mpr ⟨hy1, hy2⟩⟩

/-- C6: `region_timeline` keeps exactly the events whose region contains
the query substring case-insensitively and which pass the inclusive year
bounds, sorts them ascending by year, truncates to `limit`; in particular
the `"Baalbek"` timeline (default limit 25) is ordered by ascending year. -/
theorem region_timeline_meets_spec :
    (∀ region_name start_year end_year limit,
      RegionTimelineSpec region_name start_year end_year limit) ∧
      List.Sorted evYearLe (region_timeline "Baalbek" none none (some 25)).timeline := by
  have main : ∀ region_name start_year end_year limit,
      RegionTimelineSpec region_name start_year end_year limit := by
    intro rn sy ey lim
    simp only [RegionTimelineSpec]
    refine ⟨rfl, ?_, ?_, ?_⟩
    · cases lim with
      | none => exact List.sorted_insertionSort evYearLe _
      | some n =>
        exact List.Pairwise.sublist (List.take_sublist n _)
          (List.sorted_insertionSort evYearLe _)
    · intro ev
      have h : (region_timeline rn sy ey none).timeline =
          List.insertionSort evYearLe
            (_filter_years (EVENTS.filter (regionMatch (strLower rn))) sy ey) := rfl
      rw [h, List.mem_insertionSort]
      constructor
      · intro hm
        have h2 := List.mem_filter.mp hm
        have h3 := List.mem_filter.mp h2.1
        obtain ⟨hy1, hy2⟩ := (yearOkB_iff sy ey ev.year).mp h2.2
        exact ⟨h3.1, h3.2, hy1, hy2⟩
      · rintro ⟨hmem, hreg, hy1, hy2⟩
        exact List.mem_filter.mpr ⟨List.mem_filter.mpr ⟨hmem, hreg⟩,
          (yearOkB_iff sy ey ev.year).mpr ⟨hy1, hy2⟩⟩
    · rintro n rfl
      rfl
  exact ⟨main, (main "Baalbek" none none (some 25)).2.1⟩

/-- C1: on a path with at least two vertices, `route_history_summary`
returns the rounded polyline length, the corridor threshold, exactly the
events whose minimum vertex distance is within the corridor (annotated
with that rounded minimum), sorted ascending by year, with the narrative
listing the distinct regions alphabetically together with the minimum and
maximum selected year, or the fixed no-events message. -/
theorem route_history_summary_meets_spec (D : DistFn) (path : List (ℚ × ℚ))
    (corridor_km : ℚ) (h2 : 2 ≤ path.length) :
    RouteSummarySpec D path corridor_km := by
  have hlt : ¬ path.length < 2 := not_lt.mpr h2
  have hout : route_history_summary D path corridor_km =
      { path_length_km := round3 (pathLen D path), corridor_km := some corridor_km,
        selected_events := routeSorted D path corridor_km,
        summary := routeSummaryStr D path corridor_km } := by
    unfold route_history_summary
    rw [if_neg hlt]
  simp only [RouteSummarySpec]
  rw [hout]
  dsimp only
  refine ⟨rfl, ?_, ?_, ?_, ?_, ?_⟩
  · rw [pathLen_eq]
  · intro e
    unfold routeSorted
    rw [List.mem_insertionSort]
    unfold routeNearby
    rw [List.mem_filterMap]
    constructor
    · rintro ⟨ev, hev, hf⟩
      by_cases hc : minVertexDist D path ev.lat ev.lon ≤ corridor_km
      · rw [if_pos hc] at hf
        injection hf with hf
        exact ⟨ev, hev, hc, hf.symm⟩
      · rw [if_neg hc] at hf
        exact absurd hf (by simp)
    · rintro ⟨ev, hev, hc, rfl⟩
      exact ⟨ev, hev, by rw [if_pos hc]⟩
  · exact List.sorted_insertionSort routeYearLe _
  · intro hnil
    unfold routeSummaryStr
    rw [hnil]
  · intro f rest hcons
    have hsorted : List.Sorted routeYearLe (f :: rest) := by
      rw [← hcons]
      exact List.sorted_insertionSort routeYearLe _
    refine ⟨routeRegions (f :: rest), (rest.getLastD f).year, ?_, ?_, ?_, ?_, ?_, ?_⟩
    · unfold routeSummaryStr
      rw [hcons]
    · exact List.sorted_insertionSort _ _
    · exact (List.perm_insertionSort _ _).symm.nodup (List.nodup_dedup _)
    · intro s
      rw [hcons]
      unfold routeRegions
      rw [List.mem_insertionSort, List.mem_dedup]
    · intro e he
      rw [hcons] at he
      exact ⟨sorted_route_head f rest hsorted e he, sorted_route_last rest f hsorted e he⟩
    · refine ⟨rest.getLastD f, ?_, rfl⟩
      rw [hcons]
      exact getLastD_mem_cons' rest f

/-- Witness for `route_history_summary_meets_spec` at a concrete
two-vertex path. -/
theorem route_history_summary_meets_spec_witness :
    RouteSummarySpec Dzero [(0, 0), (1, 1)] 40 :=
  route_history_summary_meets_spec Dzero [(0, 0), (1, 1)] 40 (by decide)

/-- C7 (counterexample to the claimed shape): for a one-point path the
degenerate result of `route_history_summary` does not carry the
`corridor_km` threshold — the returned dictionary has no such key. -/
theorem route_degenerate_missing_corridor :
    (route_history_summary Dzero [((33.9 : ℚ), (35.5 : ℚ))] 40).corridor_km ≠ some 40 := by
  unfold route_history_summary
  rw [if_pos (by decide : ([((33.9 : ℚ), (35.5 : ℚ))].length < 2))]
  simp

/-- C7 (amended): for a path with fewer than two vertices the result is
the defined terminal value — zero path length, empty event list and the
explicit note — but without the corridor field. -/
theorem route_degenerate_meets_spec (D : DistFn) (path : List (ℚ × ℚ))
    (corridor_km : ℚ) (h : path.length < 2) :
    RouteDegenerateSpec D path corridor_km := by
  unfold RouteDegenerateSpec route_history_summary
  rw [if_pos h]

/-- Witness for `route_degenerate_meets_spec` at a concrete degenerate
input. -/
theorem route_degenerate_meets_spec_witness : RouteDegenerateSpec Dzero [] 40 :=
  route_degenerate_meets_spec Dzero [] 40 (by decide)

/-- C9: queries return copies — every record carrying a derived distance
field projects (by erasing that field) onto an entry of the stored table,
and `region_timeline` returns stored events themselves; the tables
`PLACES`, `POIS` and `EVENTS` are constants of the embedding, so no query
can mutate them. -/
theorem queries_return_copies (D : DistFn) (lat lon radius_km corridor_km : ℚ)
    (poi_type region_name : String) (limit : Option ℕ)
    (start_year end_year : Option ℤ) (path : List (ℚ × ℚ)) :
    (∀ e ∈ (nearby_search D lat lon poi_type radius_km limit).results, e.toPoi ∈ POIS) ∧
    (∀ e ∈ (events_near_location D lat lon radius_km start_year end_year).events,
      e.toEvent ∈ EVENTS) ∧
    (∀ e ∈ (route_history_summary D path corridor_km).selected_events,
      e.toEvent ∈ EVENTS) ∧
    (∀ ev ∈ (region_timeline region_name start_year end_year limit).timeline,
      ev ∈ EVENTS) ∧
    (∀ r, reverse_geocode D lat lon = Except.ok r →
      ∃ np, np ∈ PLACES ∧ r.name = np.1 ∧ r.city = np.2.city ∧ r.type = np.2.type ∧
        r.lat = np.2.lat ∧ r.lon = np.2.lon) := by
  refine ⟨?_, ?_, ?_, ?_, ?_⟩
  · intro e he
    have he2 : e ∈ nearbyHits D lat lon (strLower (strTrim poi_type)) radius_km := by
      cases limit with
      | none => exact (List.mem_insertionSort poiLe).mp he
      | some n => exact (List.mem_insertionSort poiLe).mp (List.take_subset n _ he)
    obtain ⟨poi, hpoi, hf⟩ := List.mem_filterMap.mp he2
    split_ifs at hf with h1 h2
    · injection hf with hf
      rw [← hf]
      exact hpoi
  · intro e he
    have he2 := (List.mem_insertionSort evDistLe).mp he
    obtain ⟨ev, hev, hf⟩ := List.mem_filterMap.mp he2
    have hmem := List.mem_filter.mp hev
    split_ifs at hf with h1
    · injection hf with hf
      rw [← hf]
      exact hmem.1
  · intro e he
    by_cases hp : path.length < 2
    · have hdeg : route_history_summary D path corridor_km =
          { path_length_km := 0, corridor_km := none, selected_events := [],
            summary := "Route is too short for evaluation." } := by
        unfold route_history_summary
        rw [if_pos hp]
      rw [hdeg] at he
      exact absurd he (List.not_mem_nil e)
    · have hmain : (route_history_summary D path corridor_km).selected_events =
          routeSorted D path corridor_km := by
        unfold route_history_summary
        rw [if_neg hp]
      rw [hmain] at he
      have he2 := (List.mem_insertionSort routeYearLe).mp he
      obtain ⟨ev, hev, hf⟩ := List.mem_filterMap.mp he2
      split_ifs at hf with h1
      · injection hf with hf
        rw [← hf]
        exact hev
  · intro ev hev
    have hev2 : ev ∈ _filter_years (EVENTS.filter (regionMatch (strLower region_name)))
        start_year end_year := by
      cases limit with
      | none => exact (List.mem_insertionSort evYearLe).mp hev
      | some n => exact (List.mem_insertionSort evYearLe).mp (List.take_subset n _ hev)
    exact (List.mem_filter.mp (List.mem_filter.mp hev2).1).1
  · intro r hr
    have hne : PLACES ≠ [] := by simp [PLACES]
    obtain ⟨l₁, b, l₂, hsplit, hscan, _, _⟩ :=
      bestScan_spec (placeKey D lat lon) PLACES hne
    have hok : reverse_geocode D lat lon = Except.ok
        ⟨b.1, b.2.city, b.2.type, round3 (placeKey D lat lon b), b.2.lat, b.2.lon⟩ := by
      unfold reverse_geocode reverse_geocodeOn
      rw [hscan]
    rw [hok] at hr
    injection hr with hr
    refine ⟨b, ?_, ?_⟩
    · rw [hsplit]
      exact List.mem_append.mpr (Or.inr (List.mem_cons_self b l₂))
    · rw [← hr]
      exact ⟨rfl, rfl, rfl, rfl, rfl⟩
